import Mathlib

/-!
Verification of the tailwindcss-block backend: a shallow embedding of the
favorites-and-search core (user/component stores, catalog query service,
favorites toggle, registration/login) translated from
`src/packages/backend/src/controllers/component.controller.ts`,
`src/packages/backend/src/controllers/auth.controller.ts`,
the mongoose models and middleware, and the centralized error handler in
`src/packages/backend/src/index.ts`.

Modelling conventions:
* MongoDB ObjectIds are strings; `isValidObjectId` models whether the string
  can be cast to an ObjectId (24 hex characters).
* A mongoose query that throws (CastError on a malformed id) is modelled by
  `DbResult.castError`; the controller's `catch { next(error) }` funnels it to
  `errorMiddleware`, the embedding of the `app.use` error handler.
* `bcrypt` hashing and `bcrypt.compare` are external collaborators: the
  functions that use them take the hash / comparison function as a parameter.
* The mongoose dirty-flag `isModified("password")` is carried explicitly on
  the user document as `passwordModified`.
-/

namespace TwBlock

/-- A user document (`src/unnamed/part_000`, `userSchema`): username, email,
stored password (hashed by the pre-save hook), list of favorited component
ids. `passwordModified` is the mongoose `isModified("password")` dirty flag. -/
structure User where
  uid : String
  username : String
  email : String
  password : String
  favorites : List String
  passwordModified : Bool
deriving Repr, DecidableEq

/-- A component document (`src/unnamed/part_001`, `componentSchema`). The
creation timestamp is a plain counter (mongoose `timestamps: true`). -/
structure Component where
  cid : String
  name : String
  description : String
  category : String
  tags : List String
  code : String
  author : String
  createdAt : Nat
deriving Repr, DecidableEq

/-- The two MongoDB collections the backend reads and writes. -/
structure Store where
  users : List User
  components : List Component
deriving Repr, DecidableEq

/-- A row of a catalog query response: the component, the populated author
username (`populate('author', 'username')`), and the `isFavorite` annotation
(`none` when the field is absent, i.e. for an anonymous caller). -/
structure AnnotatedComponent where
  comp : Component
  authorUsername : Option String
  isFavorite : Option Bool
deriving Repr, DecidableEq

/-- JSON response bodies produced by the handlers under verification. -/
inductive RespBody where
  | message : String → RespBody
  | componentList : List AnnotatedComponent → RespBody
  | component : AnnotatedComponent → RespBody
  | favoriteResult : Bool → RespBody
  | registered : RespBody
  | loginSuccess : String → String → String → RespBody
deriving Repr, DecidableEq

/-- An HTTP response: status code and JSON body. -/
structure Response where
  status : Nat
  body : RespBody
deriving Repr, DecidableEq

/-- An error object reaching the centralized error handler: optional
`statusCode` and `message` (a mongoose CastError has no `statusCode`). -/
structure ErrObj where
  statusCode : Option Nat
  message : String
deriving Repr, DecidableEq

/-- The centralized error-handling middleware (`src/packages/backend/src/index.ts`,
`app.use((err, req, res, next) => ...)`): responds with
`err.statusCode || 500` and `err.message || "服务器内部错误"`. -/
def errorMiddleware (e : ErrObj) : Response :=
  ⟨e.statusCode.getD 500, .message (if e.message == "" then "服务器内部错误" else e.message)⟩

/-- Is `c` a hexadecimal digit? -/
def isHexChar (c : Char) : Bool :=
  c.isDigit || ('a' ≤ c && c ≤ 'f') || ('A' ≤ c && c ≤ 'F')

/-- Can the string be cast to a MongoDB ObjectId (24 hex characters)?
A mongoose `findById` on a string failing this check rejects with a
CastError. -/
def isValidObjectId (s : String) : Bool :=
  s.length == 24 && s.data.all isHexChar

/-- Outcome of a mongoose query: a value, or a CastError thrown while casting
a malformed id. -/
inductive DbResult (α : Type) where
  | ok : α → DbResult α
  | castError : DbResult α
deriving Repr, DecidableEq

/-- The error object mongoose produces for a failed ObjectId cast: it carries
a message but no `statusCode` field. -/
def castErrObj (id : String) : ErrObj :=
  ⟨none, "Cast to ObjectId failed for value " ++ id⟩

/-- Embeds `Component.findById(id)`: CastError on a malformed id, otherwise the first
component whose `_id` equals `id` (ids are unique in the store). -/
def componentFindById (store : Store) (id : String) : DbResult (Option Component) :=
  if isValidObjectId id then .ok (store.components.find? (fun c => c.cid == id))
  else .castError

/-- Embeds `User.findById(uid)`: first user whose `_id` equals `uid`. -/
def findUser (store : Store) (uid : String) : Option User :=
  store.users.find? (fun u => u.uid == uid)

/-- The `userSchema.pre("save")` hook (`src/unnamed/part_000`): if the
password field was modified, replace it by its bcrypt hash (the hash function
is passed in) and clear the dirty flag; otherwise leave the document alone. -/
def preSaveHook (hash : String → String) (u : User) : User :=
  if u.passwordModified then { u with password := hash u.password, passwordModified := false }
  else u

/-- Embeds `user.save()`: run the pre-save hook and persist the document over the
stored user with the same `_id`. -/
def saveUser (hash : String → String) (store : Store) (u : User) : Store :=
  { store with users := store.users.map (fun v => if v.uid == u.uid then preSaveHook hash u else v) }

/-- JavaScript `Array.prototype.findIndex`: index of the first element
satisfying `p`, or `-1`. -/
def findIndex (p : String → Bool) : List String → Int
  | [] => -1
  | x :: xs =>
    if p x then 0
    else
      let r := findIndex p xs
      if r == -1 then -1 else r + 1

/-- The optional authentication middleware (`src/unnamed/part_002`,
`optionalAuthMiddleware`): extract the token after the first space of the
`Authorization` header, verify it (the verifier is passed in); on any failure
proceed with no identity attached. -/
def optionalAuth (verify : String → Option String) (authHeader : Option String) : Option String :=
  match authHeader with
  | none => none
  | some h =>
    match (h.splitOn " ").drop 1 with
    | [] => none
    | token :: _ => verify token

/-- A model of the MongoDB text index over name/description/tags
(`componentSchema.index({ name: "text", ... })`): a `$text $search` term list
matches when some search term matches a word of the indexed fields. -/
def matchesText (term : String) (c : Component) : Bool :=
  let indexed := c.name.splitOn " " ++ c.description.splitOn " " ++ c.tags
  (term.splitOn " ").any (fun t => indexed.contains t)

/-- The parsed query string of `GET /api/components` (all parameters are
optional strings, as Express delivers them). -/
structure ListQuery where
  search : Option String
  category : Option String
  sort : Option String
  favorites : Option String
deriving Repr, DecidableEq

/-- The filter object `query` built by `getComponents` (lines 12-31 of
`component.controller.ts`), applied to one component: text search, exact
category match, and — when set — membership of `_id` in the resolved
favorites set (`query._id = { $in: user.favorites }`). -/
def matchesQuery (q : ListQuery) (favSet : Option (List String)) (c : Component) : Bool :=
  (match q.search with | some s => matchesText s c | none => true) &&
  (match q.category with | some cat => c.category == cat | none => true) &&
  (match favSet with | some favs => favs.contains c.cid | none => true)

/-- The sort step of `getComponents` (lines 33-41): default
`{ createdAt: -1 }`; `sort === 'popular'` keeps the default (no popularity
signal exists); `sort === 'name'` sorts `{ name: 1 }`. -/
def sortComponents (sort : Option String) (cs : List Component) : List Component :=
  if sort == some "popular" then
    cs.insertionSort (fun a b => b.createdAt ≤ a.createdAt)
  else if sort == some "name" then
    cs.insertionSort (fun a b => String.le a.name b.name)
  else
    cs.insertionSort (fun a b => b.createdAt ≤ a.createdAt)

/-- Embeds `populate('author', 'username')` for one component. -/
def populateAuthor (store : Store) (c : Component) : Option String :=
  (findUser store c.author).map (fun u => u.username)

/-- Embeds lines 42-57 of `component.controller.ts`: run the composed filter
(`favSet` is the favorites restriction resolved by lines 24-31, `none` when
inactive), sort, populate the author, and — when the caller identity resolves
to a user (the controller refetches `User.findById(userId)` here) — annotate
each row with `isFavorite = favorites.includes(component._id.toString())`. -/
def listRows (store : Store) (q : ListQuery) (userId : Option String)
    (favSet : Option (List String)) : List AnnotatedComponent :=
  let comps := store.components.filter (matchesQuery q favSet)
  let sorted := sortComponents q.sort comps
  match userId.bind (findUser store) with
  | some u =>
    sorted.map (fun c =>
      AnnotatedComponent.mk c (populateAuthor store c) (some (u.favorites.contains c.cid)))
  | none =>
    sorted.map (fun c => AnnotatedComponent.mk c (populateAuthor store c) none)

/-- Embeds `getComponents` (`component.controller.ts`, lines 7-63). The
favorites filter runs only under `favorites === 'true' && userId` (line 25):
with an identity it resolves the user (404 when absent) and restricts to that
user's favorites; with no identity the branch is skipped entirely. -/
def getComponents (store : Store) (q : ListQuery) (userId : Option String) : Response :=
  match userId, q.favorites == some "true" with
  | some uid, true =>
    match findUser store uid with
    | none => ⟨404, .message "用户不存在"⟩
    | some u => ⟨200, .componentList (listRows store q userId (some u.favorites))⟩
  | _, _ => ⟨200, .componentList (listRows store q userId none)⟩

/-- Embeds `getComponent` (`component.controller.ts`, lines 66-91): a CastError from
`findById` on a malformed id propagates through `next(error)` to the
centralized handler; a missing component yields 404; otherwise the component
is returned, annotated with `isFavorite` when the caller identity resolves to
a user (`user.favorites.some(favId => favId.toString() === id)`). -/
def getComponent (store : Store) (id : String) (userId : Option String) : Response :=
  match componentFindById store id with
  | .castError => errorMiddleware (castErrObj id)
  | .ok none => ⟨404, .message "组件不存在"⟩
  | .ok (some c) =>
    let isFav : Option Bool :=
      match userId.bind (findUser store) with
      | some u => some (u.favorites.contains id)
      | none => none
    ⟨200, .component (AnnotatedComponent.mk c (populateAuthor store c) isFav)⟩

/-- Embeds `toggleFavorite` (`component.controller.ts`, lines 117-153): 404 when the
component or the user does not exist; otherwise
`index = favorites.findIndex(favId => favId.toString() === id)`, push when
`index === -1` else `splice(index, 1)`, save the user, and respond
`{ isFavorite: index === -1 }`. Returns the response and the updated store. -/
def toggleFavorite (hash : String → String) (store : Store) (id : String)
    (userId : String) : Response × Store :=
  match componentFindById store id with
  | .castError => (errorMiddleware (castErrObj id), store)
  | .ok none => (⟨404, .message "组件不存在"⟩, store)
  | .ok (some _) =>
    match findUser store userId with
    | none => (⟨404, .message "用户不存在"⟩, store)
    | some user =>
      let index : Int := findIndex (fun favId => favId == id) user.favorites
      if index == -1 then
        let user' := { user with favorites := user.favorites ++ [id] }
        (⟨200, .favoriteResult true⟩, saveUser hash store user')
      else
        let user' := { user with favorites := user.favorites.eraseIdx index.toNat }
        (⟨200, .favoriteResult false⟩, saveUser hash store user')

/-- Embeds `register` (`auth.controller.ts`, lines 6-33): 400 Conflict when a user
with the same email or username exists
(`User.findOne({ $or: [{ email }, { username }] })`); otherwise create the
user (schema: username trimmed, email trimmed and lowercased; the pre-save
hook hashes the password of the new document) and respond 201. `newId` is the
ObjectId mongoose assigns to the new document. -/
def register (hash : String → String) (store : Store)
    (username email password newId : String) : Response × Store :=
  match store.users.find? (fun u => u.email == email || u.username == username) with
  | some _ => (⟨400, .message "用户名或邮箱已被使用"⟩, store)
  | none =>
    let user : User :=
      ⟨newId, username.trim, email.trim.toLower, password, [], true⟩
    (⟨201, .message "注册成功"⟩,
      { store with users := store.users ++ [preSaveHook hash user] })

/-- Embeds `login` (`auth.controller.ts`, lines 36-72): resolve by email; 401 with
the uniform message when the user does not exist or `comparePassword` (the
bcrypt comparison, passed in) fails; otherwise 200 with the user's public
fields (the signed JWT is issued by an external library and not modelled). -/
def login (compare : String → String → Bool) (store : Store)
    (email password : String) : Response :=
  match store.users.find? (fun u => u.email == email) with
  | none => ⟨401, .message "邮箱或密码不正确"⟩
  | some user =>
    if compare password user.password then
      ⟨200, .loginSuccess user.uid user.username user.email⟩
    else ⟨401, .message "邮箱或密码不正确"⟩

/-! ### Helper lemmas -/

theorem findIndex_nonneg_or (p : String → Bool) (l : List String) :
    findIndex p l = -1 ∨ 0 ≤ findIndex p l := by
  induction l with
  | nil => exact Or.inl rfl
  | cons x xs ih =>
    by_cases h : p x = true
    · exact Or.inr (by simp [findIndex, h])
    · rcases ih with h1 | h1
      · exact Or.inl (by simp [findIndex, h, h1])
      · by_cases h2 : findIndex p xs = -1
        · exact Or.inl (by simp [findIndex, h, h2])
        · refine Or.inr ?_
          have : findIndex p (x :: xs) = findIndex p xs + 1 := by
            simp [findIndex, h, h2]
          omega

theorem findIndex_eq_neg_one_iff (p : String → Bool) (l : List String) :
    findIndex p l = -1 ↔ ∀ x ∈ l, p x = false := by
  induction l with
  | nil => simp [findIndex]
  | cons x xs ih =>
    by_cases h : p x = true
    · simp [findIndex, h]
    · by_cases h2 : findIndex p xs = -1
      · have hval : findIndex p (x :: xs) = -1 := by simp [findIndex, h, h2]
        rw [hval]
        constructor
        · intro _ y hy
          rcases List.mem_cons.mp hy with rfl | hy2
          · exact Bool.eq_false_iff.mpr h
          · exact (ih.mp h2) y hy2
        · intro _; rfl
      · have hpos : 0 ≤ findIndex p xs := (findIndex_nonneg_or p xs).resolve_left h2
        have hne : findIndex p (x :: xs) = findIndex p xs + 1 := by
          simp [findIndex, h, h2]
        constructor
        · intro hc; omega
        · intro hall
          exact absurd (ih.mpr (fun y hy => hall y (List.mem_cons_of_mem x hy))) h2

theorem findIndex_eq_neg_one_iff_not_mem (id : String) (l : List String) :
    findIndex (fun f => f == id) l = -1 ↔ id ∉ l := by
  rw [findIndex_eq_neg_one_iff]
  constructor
  · intro hall hmem
    have := hall id hmem
    simp at this
  · intro hnm x hx
    by_cases hxid : x = id
    · exact absurd (hxid ▸ hx) hnm
    · simpa using hxid

theorem eraseIdx_findIndex (id : String) (l : List String)
    (h : findIndex (fun f => f == id) l ≠ -1) :
    l.eraseIdx (findIndex (fun f => f == id) l).toNat = l.erase id := by
  induction l with
  | nil => exact absurd rfl h
  | cons x xs ih =>
    by_cases hx : (x == id) = true
    · have h0 : findIndex (fun f => f == id) (x :: xs) = 0 := by
        simp [findIndex, hx]
      rw [h0]
      simp [List.erase_cons, hx]
    · have h2 : findIndex (fun f => f == id) xs ≠ -1 := by
        intro hc
        exact h (by simp [findIndex, hx, hc])
      have hpos : 0 ≤ findIndex (fun f => f == id) xs :=
        (findIndex_nonneg_or _ xs).resolve_left h2
      obtain ⟨n, hn⟩ := Int.eq_ofNat_of_zero_le hpos
      have hs : findIndex (fun f => f == id) (x :: xs) =
          findIndex (fun f => f == id) xs + 1 := by
        simp [findIndex, hx, h2]
      rw [hs, hn]
      have : ((n : Int) + 1).toNat = n + 1 := by omega
      rw [this]
      have hxs := ih h2
      rw [hn] at hxs
      simp only [Int.toNat_ofNat] at hxs
      simp [List.eraseIdx_cons_succ, List.erase_cons, hx, hxs]

theorem preSaveHook_uid (hash : String → String) (u : User) :
    (preSaveHook hash u).uid = u.uid := by
  unfold preSaveHook; split <;> rfl

theorem preSaveHook_favorites (hash : String → String) (u : User) :
    (preSaveHook hash u).favorites = u.favorites := by
  unfold preSaveHook; split <;> rfl

theorem findUser_uid {store : Store} {uid : String} {u : User}
    (hu : findUser store uid = some u) : u.uid = uid := by
  have := List.find?_some hu
  simpa using this

theorem find?_user_cons_pos (p : User → Bool) (a : User) (l : List User)
    (h : p a = true) : List.find? p (a :: l) = some a := by
  simp [List.find?_cons, h]

theorem find?_user_cons_neg (p : User → Bool) (a : User) (l : List User)
    (h : p a = false) : List.find? p (a :: l) = List.find? p l := by
  simp [List.find?_cons, h]

theorem find?_map_save (hash : String → String) (uid : String) (u u' : User) :
    ∀ users : List User,
      users.find? (fun v => v.uid == uid) = some u → u'.uid = u.uid →
      (users.map (fun v => if v.uid == u'.uid then preSaveHook hash u' else v)).find?
          (fun v => v.uid == uid) = some (preSaveHook hash u')
  | [], hu, _ => by simp at hu
  | v :: vs, hu, hid => by
    have huid : u.uid = uid := by simpa using List.find?_some hu
    by_cases hv : (v.uid == uid) = true
    · have hveq : v = u := by
        rw [find?_user_cons_pos (fun w => w.uid == uid) v vs hv] at hu
        exact Option.some.inj hu
      have hvu : (v.uid == u'.uid) = true := by
        simp [hveq, hid]
      have hp : ((preSaveHook hash u').uid == uid) = true := by
        simp [preSaveHook_uid, hid, huid]
      simp only [List.map_cons, if_pos hvu]
      exact find?_user_cons_pos (fun w => w.uid == uid) (preSaveHook hash u') _ hp
    · have hvf : (v.uid == uid) = false := Bool.eq_false_iff.mpr hv
      have hvu : ¬ (v.uid == u'.uid) = true := by
        rw [hid, huid]
        exact fun hc => hv hc
      rw [find?_user_cons_neg (fun w => w.uid == uid) v vs hvf] at hu
      simp only [List.map_cons, if_neg hvu]
      rw [find?_user_cons_neg (fun w => w.uid == uid) v _ hvf]
      exact find?_map_save hash uid u u' vs hu hid

theorem findUser_saveUser (hash : String → String) (store : Store) (uid : String)
    (u u' : User) (hu : findUser store uid = some u) (hid : u'.uid = u.uid) :
    findUser (saveUser hash store u') uid = some (preSaveHook hash u') :=
  find?_map_save hash uid u u' store.users hu hid

theorem saveUser_components (hash : String → String) (store : Store) (u : User) :
    (saveUser hash store u).components = store.components := rfl

/-- Core behavior of the toggle when both the component and the user exist:
removal of the first occurrence when favorited, append otherwise. -/
theorem toggleFavorite_ok (hash : String → String) (store : Store) (id userId : String)
    (c : Component) (u : User)
    (hc : componentFindById store id = .ok (some c))
    (hu : findUser store userId = some u) :
    toggleFavorite hash store id userId =
      if id ∈ u.favorites then
        (⟨200, .favoriteResult false⟩,
          saveUser hash store { u with favorites := u.favorites.erase id })
      else
        (⟨200, .favoriteResult true⟩,
          saveUser hash store { u with favorites := u.favorites ++ [id] }) := by
  unfold toggleFavorite
  rw [hc, hu]
  by_cases hm : id ∈ u.favorites
  · have hne : findIndex (fun favId => favId == id) u.favorites ≠ -1 := by
      rw [Ne, findIndex_eq_neg_one_iff_not_mem]
      simpa using hm
    rw [if_pos hm]
    have hbeq : (findIndex (fun favId => favId == id) u.favorites == -1) = false := by
      simpa using hne
    simp only [hbeq, Bool.false_eq_true, if_false]
    rw [eraseIdx_findIndex id u.favorites hne]
  · have heq : findIndex (fun favId => favId == id) u.favorites = -1 :=
      (findIndex_eq_neg_one_iff_not_mem id u.favorites).mpr hm
    rw [if_neg hm]
    simp [heq]

theorem string_le_total (a b : String) : String.le a b ∨ String.le b a := by
  show ¬ List.lt b.data a.data ∨ ¬ List.lt a.data b.data
  by_cases h : List.lt b.data a.data
  · right
    intro h2
    rw [List.lt_iff_lex_lt] at h h2
    have hx : b.data < a.data := h
    have h2x : a.data < b.data := h2
    exact absurd h2x (lt_asymm hx)
  · left
    exact h

theorem string_le_trans {a b c : String} (h1 : String.le a b) (h2 : String.le b c) :
    String.le a c := by
  have h1x : ¬ List.lt b.data a.data := h1
  have h2x : ¬ List.lt c.data b.data := h2
  show ¬ List.lt c.data a.data
  intro h3
  rw [List.lt_iff_lex_lt] at h1x h2x h3
  have h1y : ¬ b.data < a.data := h1x
  have h2y : ¬ c.data < b.data := h2x
  have h3y : c.data < a.data := h3
  exact absurd h3y (not_lt.mpr (le_trans (not_lt.mp h1y) (not_lt.mp h2y)))

instance : IsTotal Component (fun a b => String.le a.name b.name) :=
  ⟨fun a b => string_le_total a.name b.name⟩

instance : IsTrans Component (fun a b => String.le a.name b.name) :=
  ⟨fun _ _ _ hab hbc => string_le_trans hab hbc⟩

instance : IsTotal Component (fun a b => b.createdAt ≤ a.createdAt) :=
  ⟨fun a b => le_total b.createdAt a.createdAt⟩

instance : IsTrans Component (fun a b => b.createdAt ≤ a.createdAt) :=
  ⟨fun _ _ _ hab hbc => le_trans hbc hab⟩

theorem sortComponents_sorted_name (cs : List Component) :
    (sortComponents (some "name") cs).Sorted (fun a b => String.le a.name b.name) :=
  List.sorted_insertionSort _ cs

theorem sortComponents_sorted_default (s : Option String) (hs : s ≠ some "name")
    (cs : List Component) :
    (sortComponents s cs).Sorted (fun a b => b.createdAt ≤ a.createdAt) := by
  unfold sortComponents
  by_cases hp : (s == some "popular") = true
  · rw [if_pos hp]
    exact List.sorted_insertionSort _ cs
  · rw [if_neg hp]
    have hn : ¬ (s == some "name") = true := by simpa using hs
    rw [if_neg hn]
    exact List.sorted_insertionSort _ cs

theorem listRows_eq_map (store : Store) (q : ListQuery) (userId : Option String)
    (favSet : Option (List String)) :
    ∃ f : Component → AnnotatedComponent,
      (∀ c, (f c).comp = c) ∧
      listRows store q userId favSet =
        (sortComponents q.sort (store.components.filter (matchesQuery q favSet))).map f := by
  unfold listRows
  cases userId.bind (findUser store) with
  | none => exact ⟨_, fun c => rfl, rfl⟩
  | some u => exact ⟨_, fun c => rfl, rfl⟩

theorem listRows_isFavorite_some (store : Store) (q : ListQuery) (uid : String)
    (u : User) (favSet : Option (List String)) (hu : findUser store uid = some u) :
    ∀ r ∈ listRows store q (some uid) favSet,
      r.isFavorite = some (u.favorites.contains r.comp.cid) := by
  intro r hr
  unfold listRows at hr
  split at hr
  · rename_i u' hu'
    have h2 : findUser store uid = some u' := hu'
    rw [hu] at h2
    cases h2
    obtain ⟨c, _, rfl⟩ := List.mem_map.mp hr
    rfl
  · rename_i hnone
    have h2 : findUser store uid = none := hnone
    rw [hu] at h2
    cases h2

theorem listRows_isFavorite_none (store : Store) (q : ListQuery)
    (favSet : Option (List String)) :
    ∀ r ∈ listRows store q none favSet, r.isFavorite = none := by
  intro r hr
  unfold listRows at hr
  split at hr
  · rename_i u' hu'
    cases hu'
  · obtain ⟨c, _, rfl⟩ := List.mem_map.mp hr
    rfl

/-! ### Concrete data used as witnesses -/

/-- A stored component with the earlier creation time. -/
def exComp1 : Component :=
  ⟨"aaaaaaaaaaaaaaaaaaaaaaaa", "Alpha", "the first test component", "buttons",
    ["ui"], "<button/>", "cccccccccccccccccccccccc", 1⟩

/-- A stored component with the later creation time. -/
def exComp2 : Component :=
  ⟨"bbbbbbbbbbbbbbbbbbbbbbbb", "Beta", "the second test component", "cards",
    [], "<div/>", "cccccccccccccccccccccccc", 2⟩

/-- A stored user who has favorited `exComp1` only. -/
def exUser : User :=
  ⟨"cccccccccccccccccccccccc", "alice", "alice@x.com", "hashedpw",
    ["aaaaaaaaaaaaaaaaaaaaaaaa"], false⟩

/-- A small concrete store: one user, two components. -/
def exStore : Store := ⟨[exUser], [exComp1, exComp2]⟩

/-! ### C1: favorites filter with no caller identity -/

/-- C1 counterexample: the claim says a list query with `favorites=true` and
no caller identity (no bearer token, so the optional gate attaches none) must
fail with Unauthorized 401 and return no component list. On the concrete
store it instead succeeds with HTTP 200 and returns the full component
list. -/
theorem getComponents_favorites_anonymous_cex :
    getComponents exStore ⟨none, none, none, some "true"⟩
        (optionalAuth (fun _ => none) none) =
      ⟨200, .componentList
        [⟨exComp2, some "alice", none⟩, ⟨exComp1, some "alice", none⟩]⟩ ∧
    (getComponents exStore ⟨none, none, none, some "true"⟩
        (optionalAuth (fun _ => none) none)).status ≠ 401 := by
  exact ⟨by decide, by decide⟩

/-- C1 (amended): for every component-list query with the favorites-only flag
set and no caller identity, the favorites filter is silently ignored — the
query succeeds with HTTP 200 and returns exactly the result of the same query
without the favorites flag (the guard `favorites === 'true' && userId` skips
the filter, and no Unauthorized error is raised). -/
theorem getComponents_favorites_anonymous (store : Store) (q : ListQuery) :
    getComponents store { q with favorites := some "true" } none =
      getComponents store { q with favorites := none } none ∧
    (getComponents store { q with favorites := some "true" } none).status = 200 :=
  ⟨rfl, rfl⟩

/-! ### C2: single-item lookup, missing and malformed ids -/

/-- C2 counterexample: the claim says a malformed id on single-item lookup
signals NotFound 404. On the concrete malformed id `zzz` the lookup instead
throws a CastError that the centralized error handler maps to HTTP 500. -/
theorem getComponent_malformed_cex :
    getComponent exStore "zzz" none =
      ⟨500, .message (castErrObj "zzz").message⟩ ∧
    (getComponent exStore "zzz" none).status ≠ 404 := by
  exact ⟨by decide, by decide⟩

/-- C2 (amended): on single-item lookup, a well-formed id (castable to an
ObjectId) matching no stored component signals NotFound 404; a malformed id
instead propagates a CastError to the centralized error handler, which
answers HTTP 500 (an internal error, not NotFound and not a
malformed-request error). -/
theorem getComponent_notFound_cases (store : Store) (id : String)
    (userId : Option String) :
    (isValidObjectId id = true → (∀ c ∈ store.components, ¬ c.cid = id) →
      getComponent store id userId = ⟨404, .message "组件不存在"⟩) ∧
    (isValidObjectId id = false →
      getComponent store id userId = errorMiddleware (castErrObj id) ∧
      (getComponent store id userId).status = 500) := by
  constructor
  · intro hv hnone
    unfold getComponent componentFindById
    rw [if_pos hv]
    have hfind : store.components.find? (fun c => c.cid == id) = none := by
      rw [List.find?_eq_none]
      intro c hc
      simpa using hnone c hc
    rw [hfind]
  · intro hv
    unfold getComponent componentFindById
    rw [if_neg (by simp [hv])]
    exact ⟨rfl, rfl⟩

/-- C2 witness: the amended claim evaluated at a well-formed unmatched id and
at a malformed id on the concrete store. -/
theorem getComponent_notFound_cases_witness :
    getComponent exStore "dddddddddddddddddddddddd" none = ⟨404, .message "组件不存在"⟩ ∧
    (getComponent exStore "zzzz" none).status = 500 :=
  ⟨(getComponent_notFound_cases exStore "dddddddddddddddddddddddd" none).1
      (by decide) (by decide),
   ((getComponent_notFound_cases exStore "zzzz" none).2 (by decide)).2⟩

theorem contains_eq_true_iff_mem {l : List String} {a : String} :
    l.contains a = true ↔ a ∈ l := List.elem_iff

theorem contains_eq_false_of_not_mem {l : List String} {a : String}
    (h : a ∉ l) : l.contains a = false := by
  by_contra hc
  exact h (contains_eq_true_iff_mem.mp (eq_true_of_ne_false hc))

theorem nodup_append_singleton {l : List String} {a : String}
    (hnd : l.Nodup) (hnm : a ∉ l) : (l ++ [a]).Nodup := by
  rw [List.nodup_append]
  refine ⟨hnd, List.nodup_singleton a, fun x hx hy => ?_⟩
  rw [List.mem_singleton] at hy
  exact hnm (hy ▸ hx)

/-! ### C3: favorites toggle behavior -/

/-- C3: the favorites toggle fails with NotFound 404 and leaves the store —
hence the caller's favorites — unchanged when the target component does not
exist or the caller identity resolves to no user; otherwise, when the id is
not in the caller's duplicate-free favorites it is appended and the call
returns `isFavorite=true`, when it is present it is removed and the call
returns `isFavorite=false`, and the returned boolean equals the post-call
membership state of the id in the saved favorites. -/
theorem toggleFavorite_behavior (hash : String → String) (store : Store)
    (id userId : String) :
    (componentFindById store id = .ok none →
      toggleFavorite hash store id userId = (⟨404, .message "组件不存在"⟩, store)) ∧
    (∀ c, componentFindById store id = .ok (some c) → findUser store userId = none →
      toggleFavorite hash store id userId = (⟨404, .message "用户不存在"⟩, store)) ∧
    (∀ c u, componentFindById store id = .ok (some c) → findUser store userId = some u →
      u.favorites.Nodup →
      ∃ u', findUser (toggleFavorite hash store id userId).2 userId = some u' ∧
        (id ∉ u.favorites →
          (toggleFavorite hash store id userId).1 = ⟨200, .favoriteResult true⟩ ∧
          u'.favorites = u.favorites ++ [id]) ∧
        (id ∈ u.favorites →
          (toggleFavorite hash store id userId).1 = ⟨200, .favoriteResult false⟩ ∧
          u'.favorites = u.favorites.erase id ∧ id ∉ u'.favorites) ∧
        (toggleFavorite hash store id userId).1.body =
          .favoriteResult (u'.favorites.contains id)) := by
  refine ⟨?_, ?_, ?_⟩
  · intro hc
    unfold toggleFavorite
    rw [hc]
  · intro c hc hu
    unfold toggleFavorite
    rw [hc, hu]
  · intro c u hc hu hnd
    rw [toggleFavorite_ok hash store id userId c u hc hu]
    by_cases hm : id ∈ u.favorites
    · rw [if_pos hm]
      refine ⟨preSaveHook hash { u with favorites := u.favorites.erase id },
        findUser_saveUser hash store userId u _ hu rfl, ?_, ?_, ?_⟩
      · intro hnm
        exact absurd hm hnm
      · intro _
        refine ⟨rfl, preSaveHook_favorites _ _, ?_⟩
        rw [preSaveHook_favorites]
        exact hnd.not_mem_erase
      · have hnm : id ∉ (preSaveHook hash
            { u with favorites := u.favorites.erase id }).favorites := by
          rw [preSaveHook_favorites]
          exact hnd.not_mem_erase
        rw [contains_eq_false_of_not_mem hnm]
    · rw [if_neg hm]
      refine ⟨preSaveHook hash { u with favorites := u.favorites ++ [id] },
        findUser_saveUser hash store userId u _ hu rfl, ?_, ?_, ?_⟩
      · intro _
        exact ⟨rfl, preSaveHook_favorites _ _⟩
      · intro hmem
        exact absurd hmem hm
      · have hmem : id ∈ (preSaveHook hash
            { u with favorites := u.favorites ++ [id] }).favorites := by
          rw [preSaveHook_favorites]
          exact List.mem_append_right _ (List.mem_singleton_self id)
        rw [contains_eq_true_iff_mem.mpr hmem]

/-- C3 witness: toggling `exComp2` (not yet favorited) then un-toggling
`exComp1` (already favorited) for the stored user behaves as stated. -/
theorem toggleFavorite_behavior_witness :
    ∃ u', findUser (toggleFavorite (fun s => s) exStore
        "bbbbbbbbbbbbbbbbbbbbbbbb" "cccccccccccccccccccccccc").2
        "cccccccccccccccccccccccc" = some u' ∧
      (toggleFavorite (fun s => s) exStore "bbbbbbbbbbbbbbbbbbbbbbbb"
        "cccccccccccccccccccccccc").1 = ⟨200, .favoriteResult true⟩ ∧
      u'.favorites = exUser.favorites ++ ["bbbbbbbbbbbbbbbbbbbbbbbb"] := by
  obtain ⟨u', h1, h2, _, _⟩ :=
    ((toggleFavorite_behavior (fun s => s) exStore "bbbbbbbbbbbbbbbbbbbbbbbb"
        "cccccccccccccccccccccccc").2.2) exComp2 exUser (by decide) (by decide) (by decide)
  exact ⟨u', h1, (h2 (by decide)).1, (h2 (by decide)).2⟩

/-! ### C4: double toggle restores membership -/

/-- C4: for every stored component and every caller whose favorites are
duplicate-free, toggling the same component twice in sequence returns the
caller's favorites to the original membership state. -/
theorem toggleFavorite_double (hash : String → String) (store : Store)
    (id userId : String) (c : Component) (u : User)
    (hc : componentFindById store id = .ok (some c))
    (hu : findUser store userId = some u)
    (hnd : u.favorites.Nodup) :
    ∃ u₂, findUser (toggleFavorite hash
        (toggleFavorite hash store id userId).2 id userId).2 userId = some u₂ ∧
      ∀ x, x ∈ u₂.favorites ↔ x ∈ u.favorites := by
  have h1 := toggleFavorite_ok hash store id userId c u hc hu
  by_cases hm : id ∈ u.favorites
  · have hstore₁ : (toggleFavorite hash store id userId).2 =
        saveUser hash store { u with favorites := u.favorites.erase id } := by
      rw [h1, if_pos hm]
    rw [hstore₁]
    have hfind₁ : findUser
        (saveUser hash store { u with favorites := u.favorites.erase id }) userId =
        some (preSaveHook hash { u with favorites := u.favorites.erase id }) :=
      findUser_saveUser hash store userId u _ hu rfl
    have hcomp₁ : componentFindById
        (saveUser hash store { u with favorites := u.favorites.erase id }) id =
        .ok (some c) := hc
    have h2 := toggleFavorite_ok hash _ id userId c _ hcomp₁ hfind₁
    have hnm : id ∉ (preSaveHook hash
        { u with favorites := u.favorites.erase id }).favorites := by
      rw [preSaveHook_favorites]
      exact hnd.not_mem_erase
    have hstore₂ : (toggleFavorite hash
        (saveUser hash store { u with favorites := u.favorites.erase id })
        id userId).2 =
        saveUser hash (saveUser hash store { u with favorites := u.favorites.erase id })
          { preSaveHook hash { u with favorites := u.favorites.erase id } with
              favorites := (preSaveHook hash
                { u with favorites := u.favorites.erase id }).favorites ++ [id] } := by
      rw [h2, if_neg hnm]
    rw [hstore₂]
    refine ⟨_, findUser_saveUser hash _ userId _ _ hfind₁ rfl, ?_⟩
    intro x
    rw [preSaveHook_favorites]
    show x ∈ (preSaveHook hash { u with favorites := u.favorites.erase id }).favorites
        ++ [id] ↔ x ∈ u.favorites
    rw [preSaveHook_favorites]
    show x ∈ u.favorites.erase id ++ [id] ↔ x ∈ u.favorites
    rw [List.mem_append, List.mem_singleton, hnd.mem_erase_iff]
    constructor
    · rintro (⟨_, hx⟩ | rfl)
      · exact hx
      · exact hm
    · intro hx
      by_cases hxe : x = id
      · exact Or.inr hxe
      · exact Or.inl ⟨hxe, hx⟩
  · have hstore₁ : (toggleFavorite hash store id userId).2 =
        saveUser hash store { u with favorites := u.favorites ++ [id] } := by
      rw [h1, if_neg hm]
    rw [hstore₁]
    have hfind₁ : findUser
        (saveUser hash store { u with favorites := u.favorites ++ [id] }) userId =
        some (preSaveHook hash { u with favorites := u.favorites ++ [id] }) :=
      findUser_saveUser hash store userId u _ hu rfl
    have hcomp₁ : componentFindById
        (saveUser hash store { u with favorites := u.favorites ++ [id] }) id =
        .ok (some c) := hc
    have h2 := toggleFavorite_ok hash _ id userId c _ hcomp₁ hfind₁
    have hmem : id ∈ (preSaveHook hash
        { u with favorites := u.favorites ++ [id] }).favorites := by
      rw [preSaveHook_favorites]
      exact List.mem_append_right _ (List.mem_singleton_self id)
    have hstore₂ : (toggleFavorite hash
        (saveUser hash store { u with favorites := u.favorites ++ [id] })
        id userId).2 =
        saveUser hash (saveUser hash store { u with favorites := u.favorites ++ [id] })
          { preSaveHook hash { u with favorites := u.favorites ++ [id] } with
              favorites := (preSaveHook hash
                { u with favorites := u.favorites ++ [id] }).favorites.erase id } := by
      rw [h2, if_pos hmem]
    rw [hstore₂]
    refine ⟨_, findUser_saveUser hash _ userId _ _ hfind₁ rfl, ?_⟩
    intro x
    rw [preSaveHook_favorites]
    show x ∈ ((preSaveHook hash
        { u with favorites := u.favorites ++ [id] }).favorites).erase id ↔
      x ∈ u.favorites
    rw [preSaveHook_favorites]
    show x ∈ (u.favorites ++ [id]).erase id ↔ x ∈ u.favorites
    rw [List.erase_append_right _ (by simpa using hm)]
    simp

/-- C4 witness: double-toggling each of the two stored components (one
favorited, one not) for the stored user restores the original membership. -/
theorem toggleFavorite_double_witness :
    (∃ u₂, findUser (toggleFavorite (fun s => s)
        (toggleFavorite (fun s => s) exStore "aaaaaaaaaaaaaaaaaaaaaaaa"
          "cccccccccccccccccccccccc").2 "aaaaaaaaaaaaaaaaaaaaaaaa"
        "cccccccccccccccccccccccc").2 "cccccccccccccccccccccccc" = some u₂ ∧
      ∀ x, x ∈ u₂.favorites ↔ x ∈ exUser.favorites) :=
  toggleFavorite_double (fun s => s) exStore "aaaaaaaaaaaaaaaaaaaaaaaa"
    "cccccccccccccccccccccccc" exComp1 exUser (by decide) (by decide) (by decide)

/-! ### C6: the toggle preserves duplicate-freeness -/

/-- C6: starting from a duplicate-free favorites list, every sequential
execution of the favorites toggle (including the failure paths, which leave
the store untouched) leaves the caller's stored favorites duplicate-free:
the toggle is set membership, not a counter. -/
theorem toggleFavorite_nodup (hash : String → String) (store : Store)
    (id userId : String) (u : User)
    (hu : findUser store userId = some u)
    (hnd : u.favorites.Nodup) :
    ∃ u', findUser (toggleFavorite hash store id userId).2 userId = some u' ∧
      u'.favorites.Nodup := by
  cases hc : componentFindById store id with
  | castError =>
    have hstore : (toggleFavorite hash store id userId).2 = store := by
      unfold toggleFavorite
      rw [hc]
    rw [hstore]
    exact ⟨u, hu, hnd⟩
  | ok oc =>
    cases oc with
    | none =>
      have hstore : (toggleFavorite hash store id userId).2 = store := by
        unfold toggleFavorite
        rw [hc]
      rw [hstore]
      exact ⟨u, hu, hnd⟩
    | some c =>
      have h1 := toggleFavorite_ok hash store id userId c u hc hu
      by_cases hm : id ∈ u.favorites
      · have hstore : (toggleFavorite hash store id userId).2 =
            saveUser hash store { u with favorites := u.favorites.erase id } := by
          rw [h1, if_pos hm]
        rw [hstore]
        refine ⟨_, findUser_saveUser hash store userId u _ hu rfl, ?_⟩
        rw [preSaveHook_favorites]
        exact hnd.erase id
      · have hstore : (toggleFavorite hash store id userId).2 =
            saveUser hash store { u with favorites := u.favorites ++ [id] } := by
          rw [h1, if_neg hm]
        rw [hstore]
        refine ⟨_, findUser_saveUser hash store userId u _ hu rfl, ?_⟩
        rw [preSaveHook_favorites]
        exact nodup_append_singleton hnd hm

/-- C6 witness: evaluating the preservation of duplicate-freeness on the
concrete store. -/
theorem toggleFavorite_nodup_witness :
    ∃ u', findUser (toggleFavorite (fun s => s) exStore "bbbbbbbbbbbbbbbbbbbbbbbb"
        "cccccccccccccccccccccccc").2 "cccccccccccccccccccccccc" = some u' ∧
      u'.favorites.Nodup :=
  toggleFavorite_nodup (fun s => s) exStore "bbbbbbbbbbbbbbbbbbbbbbbb"
    "cccccccccccccccccccccccc" exUser (by decide) (by decide)

/-! ### C5: isFavorite annotation -/

theorem isFavorite_iff_of_eq {r : AnnotatedComponent} {favs : List String}
    (h : r.isFavorite = some (favs.contains r.comp.cid)) :
    r.isFavorite = some true ↔ r.comp.cid ∈ favs := by
  rw [h]
  constructor
  · intro h2
    exact contains_eq_true_iff_mem.mp (Option.some.inj h2)
  · intro h2
    rw [contains_eq_true_iff_mem.mpr h2]

/-- C5: a component-list query with a caller identity resolving to stored
user `u` annotates every returned row with `isFavorite` equal to the
membership of the row's component id in `u`'s favorites at query time
(`isFavorite = some true` exactly on membership); a query with no caller
identity leaves `isFavorite` absent (`none`) on every row. -/
theorem getComponents_isFavorite (store : Store) (q : ListQuery) (uid : String)
    (u : User) (hu : findUser store uid = some u) :
    (∀ rows, (getComponents store q (some uid)).body = .componentList rows →
      ∀ r ∈ rows, r.isFavorite = some (u.favorites.contains r.comp.cid) ∧
        (r.isFavorite = some true ↔ r.comp.cid ∈ u.favorites)) ∧
    (∀ rows, (getComponents store q none).body = .componentList rows →
      ∀ r ∈ rows, r.isFavorite = none) := by
  constructor
  · intro rows hrows
    unfold getComponents at hrows
    split at hrows
    · split at hrows
      · rename_i uidX hequid heqb xX hfind
        injection hequid with h2
        subst h2
        rw [hu] at hfind
        cases hfind
      · rename_i uidX hequid heqb xX u' hfind
        injection hequid with h2
        subst h2
        rw [hu] at hfind
        injection hfind with h3
        subst h3
        have hr2 : RespBody.componentList (listRows store q (some uid)
            (some u.favorites)) = RespBody.componentList rows := hrows
        injection hr2 with hr3
        subst hr3
        intro r hr
        have h1 := listRows_isFavorite_some store q uid u _ hu r hr
        exact ⟨h1, isFavorite_iff_of_eq h1⟩
    · have hr2 : RespBody.componentList (listRows store q (some uid) none) =
          RespBody.componentList rows := hrows
      injection hr2 with hr3
      subst hr3
      intro r hr
      have h1 := listRows_isFavorite_some store q uid u _ hu r hr
      exact ⟨h1, isFavorite_iff_of_eq h1⟩
  · intro rows hrows
    unfold getComponents at hrows
    split at hrows
    all_goals try (rename_i c d; cases c)
    all_goals
      have hr2 : RespBody.componentList (listRows store q none none) =
          RespBody.componentList rows := hrows
      injection hr2 with hr3
      subst hr3
      exact listRows_isFavorite_none store q _

/-- C5 witness: the annotation evaluated on the concrete store, both for the
identified caller and for the anonymous caller. -/
theorem getComponents_isFavorite_witness :
    (∀ r ∈ [AnnotatedComponent.mk exComp2 (some "alice") (some false),
            AnnotatedComponent.mk exComp1 (some "alice") (some true)],
      r.isFavorite = some (exUser.favorites.contains r.comp.cid) ∧
        (r.isFavorite = some true ↔ r.comp.cid ∈ exUser.favorites)) ∧
    (∀ r ∈ [AnnotatedComponent.mk exComp2 (some "alice") none,
            AnnotatedComponent.mk exComp1 (some "alice") none],
      r.isFavorite = none) :=
  ⟨(getComponents_isFavorite exStore ⟨none, none, none, none⟩
      "cccccccccccccccccccccccc" exUser rfl).1 _ (by decide),
   (getComponents_isFavorite exStore ⟨none, none, none, none⟩
      "cccccccccccccccccccccccc" exUser rfl).2 _ (by decide)⟩

/-! ### C7: registration conflict -/

/-- C7: a registration request whose username or email equals that of an
already-existing user fails with Conflict (HTTP 400) and leaves the
credential store unchanged — no new or duplicate record is created. -/
theorem register_conflict (hash : String → String) (store : Store)
    (username email password newId : String)
    (h : ∃ v ∈ store.users, v.email = email ∨ v.username = username) :
    register hash store username email password newId =
      (⟨400, .message "用户名或邮箱已被使用"⟩, store) := by
  unfold register
  obtain ⟨v, hv, hor⟩ := h
  have hne : store.users.find?
      (fun u => u.email == email || u.username == username) ≠ none := by
    rw [Ne, List.find?_eq_none]
    push_neg
    refine ⟨v, hv, ?_⟩
    rcases hor with h1 | h1 <;> simp [h1]
  rcases hfind : store.users.find?
      (fun u => u.email == email || u.username == username) with _ | w
  · exact absurd hfind hne
  · rw [hfind]

/-- C7 witness: registering with the stored user's username conflicts and
leaves the store unchanged. -/
theorem register_conflict_witness :
    register (fun s => s) exStore "alice" "bob@x.com" "secretpw"
        "dddddddddddddddddddddddd" =
      (⟨400, .message "用户名或邮箱已被使用"⟩, exStore) :=
  register_conflict (fun s => s) exStore "alice" "bob@x.com" "secretpw"
    "dddddddddddddddddddddddd" ⟨exUser, by decide, Or.inr rfl⟩

/-! ### C8: uniform login failure -/

/-- C8: every failing login — whether no user has the given email or the
password comparison fails — produces the identical response, HTTP 401 with
the single uniform message, so the two failure causes cannot be
distinguished from the response. -/
theorem login_uniform_failure (compare : String → String → Bool) (store : Store)
    (email password : String)
    (h : store.users.find? (fun u => u.email == email) = none ∨
      ∃ v, store.users.find? (fun u => u.email == email) = some v ∧
        compare password v.password = false) :
    login compare store email password = ⟨401, .message "邮箱或密码不正确"⟩ := by
  unfold login
  rcases h with h1 | ⟨v, h1, h2⟩
  · rw [h1]
  · rw [h1]
    show (if compare password v.password then
        (⟨200, .loginSuccess v.uid v.username v.email⟩ : Response)
      else ⟨401, .message "邮箱或密码不正确"⟩) = ⟨401, .message "邮箱或密码不正确"⟩
    rw [h2]
    rfl

/-- C8 witness: an unknown email and a wrong password both evaluate to the
same 401 response on the concrete store. -/
theorem login_uniform_failure_witness :
    login (fun p h => p == h) exStore "nobody@x.com" "whateverpw" =
      ⟨401, .message "邮箱或密码不正确"⟩ ∧
    login (fun p h => p == h) exStore "alice@x.com" "wrongpw" =
      ⟨401, .message "邮箱或密码不正确"⟩ :=
  ⟨login_uniform_failure (fun p h => p == h) exStore "nobody@x.com" "whateverpw"
      (Or.inl (by decide)),
   login_uniform_failure (fun p h => p == h) exStore "alice@x.com" "wrongpw"
      (Or.inr ⟨exUser, by decide, by decide⟩)⟩

/-! ### C9: password-hash frame condition -/

/-- C9: the pre-save hook leaves the stored password untouched exactly when
the password field was not modified and recomputes the hash exactly when it
was; in particular the save performed by the favorites toggle, which touches
only the favorites list, preserves the stored password hash. -/
theorem password_hash_frame (hash : String → String) (store : Store)
    (id userId : String) (c : Component) (u : User)
    (hc : componentFindById store id = .ok (some c))
    (hu : findUser store userId = some u)
    (hpm : u.passwordModified = false) :
    (∀ v : User, v.passwordModified = false →
      (preSaveHook hash v).password = v.password) ∧
    (∀ v : User, v.passwordModified = true →
      (preSaveHook hash v).password = hash v.password) ∧
    (∃ u', findUser (toggleFavorite hash store id userId).2 userId = some u' ∧
      u'.password = u.password) := by
  refine ⟨?_, ?_, ?_⟩
  · intro v hv
    unfold preSaveHook
    rw [hv]
    rfl
  · intro v hv
    unfold preSaveHook
    rw [hv]
    rfl
  · have h1 := toggleFavorite_ok hash store id userId c u hc hu
    by_cases hm : id ∈ u.favorites
    · have hstore : (toggleFavorite hash store id userId).2 =
          saveUser hash store { u with favorites := u.favorites.erase id } := by
        rw [h1, if_pos hm]
      rw [hstore]
      refine ⟨_, findUser_saveUser hash store userId u _ hu rfl, ?_⟩
      unfold preSaveHook
      have hpm2 : ({ u with favorites := u.favorites.erase id }).passwordModified
          = false := hpm
      rw [hpm2]
      rfl
    · have hstore : (toggleFavorite hash store id userId).2 =
          saveUser hash store { u with favorites := u.favorites ++ [id] } := by
        rw [h1, if_neg hm]
      rw [hstore]
      refine ⟨_, findUser_saveUser hash store userId u _ hu rfl, ?_⟩
      unfold preSaveHook
      have hpm2 : ({ u with favorites := u.favorites ++ [id] }).passwordModified
          = false := hpm
      rw [hpm2]
      rfl

/-- C9 witness: the toggle's save on the concrete store leaves the stored
password hash unchanged even under a hash function that alters its input. -/
theorem password_hash_frame_witness :
    ∃ u', findUser (toggleFavorite (fun s => s ++ "!") exStore
        "bbbbbbbbbbbbbbbbbbbbbbbb" "cccccccccccccccccccccccc").2
        "cccccccccccccccccccccccc" = some u' ∧ u'.password = exUser.password :=
  (password_hash_frame (fun s => s ++ "!") exStore "bbbbbbbbbbbbbbbbbbbbbbbb"
    "cccccccccccccccccccccccc" exComp2 exUser (by decide) (by decide)
    (by decide)).2.2

/-! ### C10: sort order -/

/-- C10: every returned component list is sorted ascending lexicographically
by name when the sort key is `name`, and descending by creation time for
every other sort key — including the default and `popular`, which has no
backing signal and silently falls back to the default ordering. -/
theorem getComponents_sorted (store : Store) (q : ListQuery)
    (userId : Option String) (rows : List AnnotatedComponent)
    (hrows : (getComponents store q userId).body = .componentList rows) :
    (q.sort = some "name" →
      rows.Sorted (fun a b => String.le a.comp.name b.comp.name)) ∧
    (q.sort ≠ some "name" →
      rows.Sorted (fun a b => b.comp.createdAt ≤ a.comp.createdAt)) := by
  have hex : ∃ favSet, rows = listRows store q userId favSet := by
    unfold getComponents at hrows
    split at hrows
    · split at hrows
      · simp at hrows
      · exact ⟨_, (RespBody.componentList.inj hrows).symm⟩
    · exact ⟨_, (RespBody.componentList.inj hrows).symm⟩
  obtain ⟨favSet, rfl⟩ := hex
  obtain ⟨f, hf, heq⟩ := listRows_eq_map store q userId favSet
  rw [heq]
  constructor
  · intro hname
    rw [hname]
    have hs := sortComponents_sorted_name
      (store.components.filter (matchesQuery q favSet))
    refine List.pairwise_map.mpr (hs.imp ?_)
    intro a b hab
    rw [hf a, hf b]
    exact hab
  · intro hname
    have hs := sortComponents_sorted_default q.sort hname
      (store.components.filter (matchesQuery q favSet))
    refine List.pairwise_map.mpr (hs.imp ?_)
    intro a b hab
    rw [hf a, hf b]
    exact hab

/-- C10 witness: on the concrete store the `name` sort returns the rows in
ascending name order and the default sort in descending creation-time
order. -/
theorem getComponents_sorted_witness :
    ([AnnotatedComponent.mk exComp1 (some "alice") none,
      AnnotatedComponent.mk exComp2 (some "alice") none] :
        List AnnotatedComponent).Sorted
      (fun a b => String.le a.comp.name b.comp.name) ∧
    ([AnnotatedComponent.mk exComp2 (some "alice") none,
      AnnotatedComponent.mk exComp1 (some "alice") none] :
        List AnnotatedComponent).Sorted
      (fun a b => b.comp.createdAt ≤ a.comp.createdAt) :=
  ⟨(getComponents_sorted exStore ⟨none, none, some "name", none⟩ none
      [AnnotatedComponent.mk exComp1 (some "alice") none,
       AnnotatedComponent.mk exComp2 (some "alice") none] (by decide)).1 rfl,
   (getComponents_sorted exStore ⟨none, none, none, none⟩ none
      [AnnotatedComponent.mk exComp2 (some "alice") none,
       AnnotatedComponent.mk exComp1 (some "alice") none] (by decide)).2
      (by decide)⟩

end TwBlock
